import Mathlib

/-!
Verification of the perps-arbitrage orchestrator.

This file gives a shallow embedding, in Lean 4, of the decision logic of the
perps-arbitrage repository: the cost model (`minFunding`), the deposit
watermark (`scraper.js`), the strategy selector and settlement engine
(`bot.js`), and the perp order sizing (`perp/index.ts` and the arbitrage
scripts).  JavaScript numbers are modelled as exact rationals extended with
the non-finite values `NaN`, `Infinity`, `-Infinity` and `undefined`;
`BigInt` values are modelled as integers.
-/

/-- Model of a JavaScript number-valued expression: a finite value (an exact
rational, abstracting the IEEE double), `NaN`, the two infinities, or
`undefined` (a missing field, which `Number.isFinite` also rejects). -/
inductive JSVal where
  | undef : JSVal
  | nan : JSVal
  | inf : JSVal
  | ninf : JSVal
  | num : ℚ → JSVal
deriving DecidableEq, Repr

namespace JSVal

/-- `Number.isFinite(v)`. -/
def isFinite : JSVal → Bool
  | num _ => true
  | _ => false

/-- `typeof v === "number"` (`NaN` and the infinities are numbers;
`undefined` is not). -/
def typeofNumber : JSVal → Bool
  | undef => false
  | _ => true

/-- The rational carried by a finite value (junk `0` otherwise). -/
def toQ : JSVal → ℚ
  | num q => q
  | _ => 0

/-- JavaScript `v - r` for a plain rational `r`. -/
def subQ : JSVal → ℚ → JSVal
  | num q, r => num (q - r)
  | undef, _ => nan
  | nan, _ => nan
  | inf, _ => inf
  | ninf, _ => ninf

/-- JavaScript `v <= 0` (false on `NaN` and `undefined`). -/
def jsLe0 : JSVal → Bool
  | num q => decide (q ≤ 0)
  | ninf => true
  | _ => false

/-- JavaScript `v > 0` (false on `NaN` and `undefined`). -/
def jsGt0 : JSVal → Bool
  | num q => decide (0 < q)
  | inf => true
  | _ => false

/-- JavaScript `v === 0`. -/
def jsEq0 : JSVal → Bool
  | num q => decide (q = 0)
  | _ => false

end JSVal

/-- JavaScript `Math.round` (half-way cases toward `+∞`). -/
def jsRound (q : ℚ) : ℤ := ⌊q + 1 / 2⌋

/-- JavaScript `Math.ceil`. -/
def jsCeil (q : ℚ) : ℤ := ⌈q⌉

/-! ## CostModel (`src/utils/minFunding.ts`, embedded from `src/unnamed/part_000`) -/

/-- `MinFundingInputs`: every field is optional and may be non-finite, so each
is a `JSVal`. -/
structure MinFundingInputs where
  spotRoundTripBps : JSVal
  perpRoundTripBps : JSVal
  gasRoundTripBps : JSVal
  capitalAprPct : JSVal
  holdHours : JSVal
  fundingStdPctPerHr : JSVal
  zScore : JSVal
  extraBasisPremiumPctPerHr : JSVal
deriving DecidableEq, Repr

/-- `NormalizedInputs`: all fields finite after defaulting. -/
structure NormalizedInputs where
  spotRoundTripBps : ℚ
  perpRoundTripBps : ℚ
  gasRoundTripBps : ℚ
  capitalAprPct : ℚ
  holdHours : ℚ
  fundingStdPctPerHr : ℚ
  zScore : ℚ
  extraBasisPremiumPctPerHr : ℚ
deriving DecidableEq, Repr

/-- `Number.isFinite(x) ? x : 0` — the default for every field except
`holdHours`. -/
def defaultZero (v : JSVal) : ℚ := if v.isFinite then v.toQ else 0

/-- `normalizeInputs` from `minFunding.ts`: zero-default every field, except
`holdHours` which defaults to `1` and is forced strictly positive
(`Number.isFinite(h) && h > 0 ? h : 1`). -/
def normalizeInputs (inputs : MinFundingInputs) : NormalizedInputs where
  spotRoundTripBps := defaultZero inputs.spotRoundTripBps
  perpRoundTripBps := defaultZero inputs.perpRoundTripBps
  gasRoundTripBps := defaultZero inputs.gasRoundTripBps
  capitalAprPct := defaultZero inputs.capitalAprPct
  holdHours :=
    if inputs.holdHours.isFinite && decide (0 < inputs.holdHours.toQ) then
      inputs.holdHours.toQ
    else 1
  fundingStdPctPerHr := defaultZero inputs.fundingStdPctPerHr
  zScore := defaultZero inputs.zScore
  extraBasisPremiumPctPerHr := defaultZero inputs.extraBasisPremiumPctPerHr

/-- `MinFundingBreakdown` (the `normalizedInputs` echo field is carried too). -/
structure MinFundingBreakdown where
  totalPctPerHour : ℚ
  breakevenPctPerHour : ℚ
  tradingCostPctPerHour : ℚ
  capitalCostPctPerHour : ℚ
  riskBufferPctPerHour : ℚ
  basisPremiumPctPerHour : ℚ
  normalizedInputs : NormalizedInputs
deriving DecidableEq, Repr

/-- `computeMinFundingBreakdown` from `minFunding.ts`, line for line. -/
def computeMinFundingBreakdown (inputs : MinFundingInputs) : MinFundingBreakdown :=
  let normalized := normalizeInputs inputs
  let spotCostPct := normalized.spotRoundTripBps / 100
  let perpCostPct := normalized.perpRoundTripBps / 100
  let gasCostPct := normalized.gasRoundTripBps / 100
  let tradingCostPctPerHour :=
    (spotCostPct + perpCostPct + gasCostPct) / normalized.holdHours
  let capitalCostPctPerHour := normalized.capitalAprPct / 100 / (365 * 24)
  let breakevenPctPerHour := tradingCostPctPerHour + capitalCostPctPerHour
  let riskBufferPctPerHour := normalized.zScore * normalized.fundingStdPctPerHr
  let basisPremiumPctPerHour := normalized.extraBasisPremiumPctPerHr
  let totalPctPerHour :=
    breakevenPctPerHour + riskBufferPctPerHour + basisPremiumPctPerHour
  { totalPctPerHour := totalPctPerHour
    breakevenPctPerHour := breakevenPctPerHour
    tradingCostPctPerHour := tradingCostPctPerHour
    capitalCostPctPerHour := capitalCostPctPerHour
    riskBufferPctPerHour := riskBufferPctPerHour
    basisPremiumPctPerHour := basisPremiumPctPerHour
    normalizedInputs := normalized }

/-- `BreakevenHoldResult` (optional `holdHours`/`holdDays`;
`netFundingPerHour` can be non-finite when the funding observation is). -/
structure BreakevenHoldResult where
  breakevenPossible : Bool
  holdHours : Option ℚ
  holdDays : Option ℚ
  tradingCostPct : ℚ
  netFundingPerHour : JSVal
  normalizedInputs : NormalizedInputs
deriving DecidableEq, Repr

/-- `computeBreakevenHoldDuration` from `minFunding.ts`.  In the rational
model a finite `fundingPctPerHour` always yields a finite
`netFundingPerHour` and, past the positivity guard, a finite `holdHours`,
so the source's `Number.isFinite(holdHours)` re-check cannot fire. -/
def computeBreakevenHoldDuration (inputs : MinFundingInputs)
    (fundingPctPerHour : JSVal) : BreakevenHoldResult :=
  let normalized := normalizeInputs inputs
  let spotCostPct := normalized.spotRoundTripBps / 100
  let perpCostPct := normalized.perpRoundTripBps / 100
  let gasCostPct := normalized.gasRoundTripBps / 100
  let tradingCostPct := spotCostPct + perpCostPct + gasCostPct
  let capitalCostPctPerHour := normalized.capitalAprPct / 100 / (365 * 24)
  let riskBufferPctPerHour := normalized.zScore * normalized.fundingStdPctPerHr
  let basisPremiumPctPerHour := normalized.extraBasisPremiumPctPerHr
  let netFundingPerHour :=
    ((fundingPctPerHour.subQ capitalCostPctPerHour).subQ
        riskBufferPctPerHour).subQ basisPremiumPctPerHour
  if !fundingPctPerHour.isFinite || netFundingPerHour.jsLe0 then
    { breakevenPossible := false
      holdHours := none
      holdDays := none
      tradingCostPct := tradingCostPct
      netFundingPerHour := netFundingPerHour
      normalizedInputs := normalized }
  else
    let holdHours := tradingCostPct / netFundingPerHour.toQ
    if holdHours < 0 then
      { breakevenPossible := false
        holdHours := none
        holdDays := none
        tradingCostPct := tradingCostPct
        netFundingPerHour := netFundingPerHour
        normalizedInputs := normalized }
    else
      { breakevenPossible := true
        holdHours := some holdHours
        holdDays := some (holdHours / 24)
        tradingCostPct := tradingCostPct
        netFundingPerHour := netFundingPerHour
        normalizedInputs := normalized }

/-! ## Address normalization and matching (`telegram-bot/scraper.js`)

JavaScript strings are modelled as `List Char` so that every operation is a
plain structural function. -/

/-- `s.toLowerCase()` (ASCII; addresses are hex strings). -/
def toLowerChars (cs : List Char) : List Char := cs.map Char.toLower

/-- `s.trim()`. -/
def trimChars (cs : List Char) : List Char :=
  ((cs.dropWhile Char.isWhitespace).reverse.dropWhile Char.isWhitespace).reverse

/-- `s.slice(-n)`: the last `n` characters (the whole string when shorter). -/
def lastN (n : ℕ) (cs : List Char) : List Char := cs.drop (cs.length - n)

/-- `sameAddress` from `scraper.js`: falsy guard, lowercase + trim, exact
comparison at equal length, otherwise
`observed.startsWith(target.slice(0, 6)) && observed.endsWith(target.slice(-6))`. -/
def sameAddress (observed target : List Char) : Bool :=
  if observed.isEmpty || target.isEmpty then false
  else
    let o := trimChars (toLowerChars observed)
    let t := trimChars (toLowerChars target)
    if o.length = t.length then o == t
    else (t.take 6).isPrefixOf o && (lastN 6 t).isSuffixOf o

/-- Drop a leading `0x`, leaving the hex digits of an address. -/
def stripHexPrefix (s : List Char) : List Char :=
  if ([ '0', 'x' ] : List Char).isPrefixOf s then s.drop 2 else s

/-- Rendering of the claim wording, for comparison with `sameAddress`: at
unequal lengths the match is accepted iff the first six and last six HEX
characters (i.e. of the part after `0x`) of the two normalized strings
agree. -/
def sameAddressHexHeadTail (observed target : List Char) : Bool :=
  if observed.isEmpty || target.isEmpty then false
  else
    let o := trimChars (toLowerChars observed)
    let t := trimChars (toLowerChars target)
    if o.length = t.length then o == t
    else
      let oHex := stripHexPrefix o
      let tHex := stripHexPrefix t
      oHex.take 6 == tHex.take 6 && lastN 6 oHex == lastN 6 tHex

/-- `normalizeAddr` from `scraper.js`: falsy guard, trim + lowercase, then
prepend `0x` unless already present. -/
def normalizeAddr (s : List Char) : List Char :=
  if s.isEmpty then []
  else
    let t := toLowerChars (trimChars s)
    if ([ '0', 'x' ] : List Char).isPrefixOf t then t else '0' :: 'x' :: t

/-! ## Deposit watermark (`scraper.js`'s `checkLatestDeposit`) -/

/-- The first transfer row scraped from the explorer page.  `version` is the
transaction version shown in the row (absent when the cell failed to parse);
`amountStr` is the numeric value of the matched amount string, when one
matched. -/
structure DepositRow where
  version : Option String
  fromAddr : List Char
  toAddr : List Char
  amountStr : Option ℚ
deriving DecidableEq, Repr

/-- The pair `checkLatestDeposit` resolves with: `[null, null]` (no new
version) or `[version, deposit]`, where `deposit = 0` marks a new but
irrelevant version. -/
inductive CheckOutcome where
  | noNew : CheckOutcome
  | newEvent : String → ℚ → CheckOutcome
deriving DecidableEq, Repr

/-- `checkLatestDeposit(fromAddress, toAddress)` from `scraper.js`, as a
function of the persisted seen-version set and the scraped first row.  The
version is added to the seen set (and saved) before the relevance
comparison, so a new version is recorded no matter how the address match
turns out. -/
def checkLatestDeposit (seen : List String) (fromAddress toAddress : List Char)
    (row : Option DepositRow) : CheckOutcome × List String :=
  let targetFrom := normalizeAddr fromAddress
  let targetTo := normalizeAddr toAddress
  match row with
  | none => (CheckOutcome.noNew, seen)
  | some r =>
    match r.version with
    | none => (CheckOutcome.noNew, seen)
    | some v =>
      if seen.contains v then (CheckOutcome.noNew, seen)
      else
        let seenNext := v :: seen
        let isFromOk := sameAddress r.fromAddr targetFrom
        let isToOk := sameAddress r.toAddr targetTo
        if !isFromOk || !isToOk then (CheckOutcome.newEvent v 0, seenNext)
        else (CheckOutcome.newEvent v (r.amountStr.getD 0), seenNext)

/-- Iterated polling: thread the persisted seen set through a sequence of
scraped rows, collecting each call's outcome. -/
def runPolls (fromAddress toAddress : List Char) :
    List String → List (Option DepositRow) → List CheckOutcome × List String
  | seen, [] => ([], seen)
  | seen, row :: rows =>
    let step := checkLatestDeposit seen fromAddress toAddress row
    let rest := runPolls fromAddress toAddress step.2 rows
    (step.1 :: rest.1, rest.2)

/-- How many outcomes in a list classified version `v` as new. -/
def countNewFor (v : String) : List CheckOutcome → ℕ
  | [] => 0
  | CheckOutcome.noNew :: outs => countNewFor v outs
  | CheckOutcome.newEvent w _ :: outs =>
    (if w = v then 1 else 0) + countNewFor v outs

/-! ## Strategy selection at open time (`bot.js`, `pollDepositsOnce`) -/

/-- The two symmetric strategies. -/
inductive Direction where
  | longSpotShortPerp : Direction
  | shortSpotLongPerp : Direction
deriving DecidableEq, Repr

/-- The ordered list of open sequences `pollDepositsOnce` runs for a funding
observation `fr`: `typeof fr === "number" && fr > 0` opens
long-spot-short-perp, every other observation (zero, negative, `NaN`, or a
non-number) falls into the single `else` branch, which opens
short-spot-long-perp.  Each branch makes exactly one attempt. -/
def openAttempts (fr : JSVal) : List Direction :=
  if fr.typeofNumber && fr.jsGt0 then [Direction.longSpotShortPerp]
  else [Direction.shortSpotLongPerp]

/-- The open attempts of one poll tick as a function of the
`getFundingRate()` call's outcome: a throw (`none`) is caught and aborts the
auto-trade without attempting any open sequence. -/
def pollTradeAttempts (fr : Option JSVal) : List Direction :=
  match fr with
  | none => []
  | some v => openAttempts v

/-! ## Close-time direction selection (`bot.js`, `/close_position`) -/

/-- A JavaScript field value fed to the handler's `parseNum`: `null`
(or `undefined`), a number, or a string. -/
inductive JSField where
  | null : JSField
  | num : ℚ → JSField
  | str : List Char → JSField
deriving DecidableEq, Repr

/-- Read a maximal run of decimal digits, returning its value, its length
and the rest of the input. -/
def readDigitsAux : ℕ → ℕ → List Char → ℕ × ℕ × List Char
  | acc, n, [] => (acc, n, [])
  | acc, n, c :: cs =>
    if c.isDigit then readDigitsAux (10 * acc + (c.toNat - 48)) (n + 1) cs
    else (acc, n, c :: cs)

/-- The fractional group `(\.\d+)?`: value and digit count of the digit run
after a dot, provided a digit follows the dot (as in the regex). -/
def fracGroupAt : List Char → Option (ℕ × ℕ)
  | p :: d :: rest2 =>
    if p = '.' && d.isDigit then
      let fracPart := readDigitsAux 0 0 (d :: rest2)
      some (fracPart.1, fracPart.2.1)
    else none
  | _ => none

/-- Match `\d+(\.\d+)?` at the head of the input. -/
def matchUnsignedAt : List Char → Option ℚ
  | [] => none
  | c :: cs =>
    if c.isDigit then
      let intPart := readDigitsAux 0 0 (c :: cs)
      match fracGroupAt intPart.2.2 with
      | some fracPart => some ((intPart.1 : ℚ) + (fracPart.1 : ℚ) / (10 : ℚ) ^ fracPart.2)
      | none => some (intPart.1 : ℚ)
    else none

/-- Match `-?\d+(\.\d+)?` at the head of the input. -/
def matchNumAt (cs : List Char) : Option ℚ :=
  match cs with
  | c :: rest =>
    if c = '-' then (matchUnsignedAt rest).map (fun q => -q)
    else matchUnsignedAt (c :: rest)
  | [] => none

/-- Leftmost match of `-?\d+(\.\d+)?`, as `String.prototype.match` finds
it. -/
def scanFirstNumber : List Char → Option ℚ
  | [] => none
  | c :: cs =>
    match matchNumAt (c :: cs) with
    | some q => some q
    | none => scanFirstNumber cs

/-- `parseNum` from the `/close_position` handler: `null`/`undefined` give
`NaN`, a number passes through, a string yields the value of its first
`-?\d+(\.\d+)?` match or `NaN`. -/
def parseNum : Option JSField → JSVal
  | none => JSVal.nan
  | some JSField.null => JSVal.nan
  | some (JSField.num q) => JSVal.num q
  | some (JSField.str s) =>
    match scanFirstNumber s with
    | some q => JSVal.num q
    | none => JSVal.nan

/-- The first open perp position as the position inspector reports it:
its long/short flag and the two funding fields the handler looks at. -/
structure PositionInfo where
  isLong : Bool
  fundingRate : Option JSField
  accFundingPerSize : Option JSField
deriving DecidableEq, Repr

/-- The handler's inferred funding-rate sign: `parseNum(p?.fundingRate)`,
falling back to `parseNum(p?.accFundingPerSize)` when non-finite or zero;
`+1`/`-1` when the result is finite and non-zero, else `0`. -/
def fundingRateSign (p : Option PositionInfo) : ℤ :=
  let fr0 := parseNum (p.bind fun q => q.fundingRate)
  let fr :=
    if !fr0.isFinite || fr0.jsEq0 then parseNum (p.bind fun q => q.accFundingPerSize)
    else fr0
  if fr.isFinite && !fr.jsEq0 then (if fr.jsGt0 then 1 else -1) else 0

/-- The two close sequences (CLI scripts) the handler can run. -/
inductive CloseSeq where
  | closeLongSpotShortPerp : CloseSeq
  | closeShortSpotLongPerp : CloseSeq
deriving DecidableEq, Repr

/-- The ordered close sequences the `/close_position` handler runs: selected
by the inferred funding sign; on an unknown sign it tries
close-long-spot-short-perp and falls back to close-short-spot-long-perp only
if that first run failed. -/
def closeSequencesAttempted (p : Option PositionInfo) (firstCloseFails : Bool) :
    List CloseSeq :=
  let sign := fundingRateSign p
  if sign > 0 then [CloseSeq.closeLongSpotShortPerp]
  else if sign < 0 then [CloseSeq.closeShortSpotLongPerp]
  else if firstCloseFails then
    [CloseSeq.closeLongSpotShortPerp, CloseSeq.closeShortSpotLongPerp]
  else [CloseSeq.closeLongSpotShortPerp]

/-- Rendering of the claim: the close sequence that mirrors the actual open
leg, read from the open position's long/short flag (a long perp hedge
belongs to the short-spot-long-perp strategy and vice versa). -/
def mirrorCloseOf (isLong : Bool) : CloseSeq :=
  if isLong then CloseSeq.closeShortSpotLongPerp else CloseSeq.closeLongSpotShortPerp

/-- The open position as the Merkle client reports it to the close scripts. -/
structure MerklePosition where
  size : ℤ
  collateral : ℤ
  isLong : Bool
deriving DecidableEq, Repr

/-- Whether `close-short-spot-long-perp`'s `main` submits its closing market
order: it returns early when no position (or a zero-size one) exists, skips
when the existing position is not long, and obeys `--submit-perp`. -/
def closeShortSpotLongPerpSubmits (existing : Option MerklePosition)
    (submitPerp : Bool) : Bool :=
  match existing with
  | none => false
  | some pos =>
    if pos.size = 0 then false
    else if !pos.isLong then false
    else submitPerp

/-- Whether `close-long-spot-short-perp`'s `main` submits its closing market
order: as above, but it skips when the existing position is long. -/
def closeLongSpotShortPerpSubmits (existing : Option MerklePosition)
    (submitPerp : Bool) : Bool :=
  match existing with
  | none => false
  | some pos =>
    if pos.size = 0 then false
    else if pos.isLong then false
    else submitPerp

/-! ## Settlement (`bot.js`, `/close_position` payout) -/

/-- The payout numbers the handler derives (all `BigInt` base units):
`profitBase = bal > dep ? bal - dep : 0n`,
`feeBase = profitBase * 20n / 100n` (`FEE_PERCENT = 20n`),
`sendBase = bal > fee ? bal - fee : 0n`; the transfer is attempted iff
`sendBase > 0n`. -/
structure SettlementResult where
  profitBase : ℤ
  feeBase : ℤ
  sendBase : ℤ
  attemptTransfer : Bool
deriving DecidableEq, Repr

/-- The `/close_position` settlement computation from `bot.js`.  `BigInt`
division truncates toward zero, hence `Int.tdiv` (the dividend is
non-negative here, so every division convention agrees). -/
def closeSettlement (currentBalBase depositBase : ℤ) : SettlementResult :=
  let profitBase :=
    if currentBalBase > depositBase then currentBalBase - depositBase else 0
  let feeBase := Int.tdiv (profitBase * 20) 100
  let sendBase := if currentBalBase > feeBase then currentBalBase - feeBase else 0
  { profitBase := profitBase
    feeBase := feeBase
    sendBase := sendBase
    attemptTransfer := decide (0 < sendBase) }

/-- Terminal outcomes of one `/close_position` invocation. -/
inductive CloseFlowOutcome where
  | closeLegsFailed : CloseFlowOutcome
  | noFundsAfterFees : CloseFlowOutcome
  | paidOut : ℤ → CloseFlowOutcome
  | payoutTxFailed : CloseFlowOutcome
deriving DecidableEq, Repr

/-- The `/close_position` handler end to end, as a function of the
environment's outcomes: whether the close-leg CLIs succeeded, the custodial
USDC balance read afterwards, and whether the payout transaction was
submitted and confirmed.  `totalDeposit` (human USDC units) is the running
deposit total; it is set to `0` only on the line after the confirmed
payout, and every failure path is caught, leaving it unchanged. -/
def closePositionRun (totalDeposit : ℚ) (closeLegsOk : Bool)
    (currentBalBase : ℤ) (withdrawOk : Bool) : CloseFlowOutcome × ℚ :=
  if !closeLegsOk then (CloseFlowOutcome.closeLegsFailed, totalDeposit)
  else
    let depositBase := jsRound (totalDeposit * 1000000)
    let s := closeSettlement currentBalBase depositBase
    if s.sendBase ≤ 0 then (CloseFlowOutcome.noFundsAfterFees, totalDeposit)
    else if withdrawOk then (CloseFlowOutcome.paidOut s.sendBase, 0)
    else (CloseFlowOutcome.payoutTxFailed, totalDeposit)

/-! ## Perp order sizing -/

/-- The final order of `perp/index.ts`'s `main`: the clamped USDC amounts
and the rounded base-unit deltas actually submitted. -/
structure PerpIndexOrder where
  sizeUSDC : ℚ
  collateralUSDC : ℚ
  sizeDelta : ℤ
  collateralDelta : ℤ
deriving DecidableEq, Repr

/-- `perp/index.ts` `main`, step 1: a size below the venue minimum is raised
to it. -/
def perpIndexSizeUSDC (requestedSizeUSDC0 minSizeUSDC : ℚ) : ℚ :=
  if requestedSizeUSDC0 < minSizeUSDC then minSizeUSDC else requestedSizeUSDC0

/-- `perp/index.ts` `main`, steps 1–2 for collateral: when the size was
raised and collateral was not given explicitly but leverage was, collateral
is recomputed from the target leverage; then collateral below the venue
minimum is raised to it. -/
def perpIndexCollPreClamp (requestedSizeUSDC0 collateralUSDC0 targetLeverage
    minSizeUSDC minCollateralUSDC : ℚ)
    (collateralSpecified leverageSpecified : Bool) : ℚ :=
  let collateralUSDC1 :=
    if requestedSizeUSDC0 < minSizeUSDC && (!collateralSpecified && leverageSpecified) then
      perpIndexSizeUSDC requestedSizeUSDC0 minSizeUSDC / targetLeverage
    else collateralUSDC0
  if collateralUSDC1 < minCollateralUSDC then minCollateralUSDC else collateralUSDC1

/-- `perp/index.ts` `main`, step 3, the leverage clamp: when
`size / collateral > maxLeverage`, collateral is raised to
`Math.ceil((size / maxLeverage) * 1e6) / 1e6` and the size is left alone. -/
def perpIndexCollUSDC (requestedSizeUSDC0 collateralUSDC0 targetLeverage
    minSizeUSDC minCollateralUSDC maxLeverage : ℚ)
    (collateralSpecified leverageSpecified : Bool) : ℚ :=
  let requestedSizeUSDC := perpIndexSizeUSDC requestedSizeUSDC0 minSizeUSDC
  let collateralUSDC2 := perpIndexCollPreClamp requestedSizeUSDC0 collateralUSDC0
    targetLeverage minSizeUSDC minCollateralUSDC collateralSpecified leverageSpecified
  if maxLeverage < requestedSizeUSDC / collateralUSDC2 then
    (jsCeil ((requestedSizeUSDC / maxLeverage) * 1000000) : ℚ) / 1000000
  else collateralUSDC2

/-- The sizing pipeline of `perp/index.ts` `main` (after its positivity
checks), assembled from the three steps above, with the final
`Math.round(x * 1_000_000)` base-unit conversions. -/
def perpIndexFinalOrder (requestedSizeUSDC0 collateralUSDC0 targetLeverage
    minSizeUSDC minCollateralUSDC maxLeverage : ℚ)
    (collateralSpecified leverageSpecified : Bool) : PerpIndexOrder :=
  let requestedSizeUSDC := perpIndexSizeUSDC requestedSizeUSDC0 minSizeUSDC
  let collateralUSDC := perpIndexCollUSDC requestedSizeUSDC0 collateralUSDC0
    targetLeverage minSizeUSDC minCollateralUSDC maxLeverage
    collateralSpecified leverageSpecified
  { sizeUSDC := requestedSizeUSDC
    collateralUSDC := collateralUSDC
    sizeDelta := jsRound (requestedSizeUSDC * 1000000)
    collateralDelta := jsRound (collateralUSDC * 1000000) }

/-- Order sizing of the `long-spot-short-perp` arbitrage sequencer
(`src/unnamed/part_000`): `sizeDelta = max(requiredUsdc, minSize)` and
`collateralDelta = max(collateralInput, minCollateral)` where
`collateralInput` is the `--perp-collateral` argument in base units, or
`sizeDelta` (1x) when absent — venue minimums only, no leverage clamp. -/
def longSpotShortPerpOrder (requiredUsdc : ℤ) (perpCollateralArg : Option ℚ)
    (minSize minCollateral : ℤ) : ℤ × ℤ :=
  let sizeDelta := if requiredUsdc > minSize then requiredUsdc else minSize
  let collateralInput :=
    match perpCollateralArg with
    | some c => jsRound (c * 1000000)
    | none => sizeDelta
  let collateralDelta :=
    if collateralInput > minCollateral then collateralInput else minCollateral
  (sizeDelta, collateralDelta)

/-! ## Theorems -/

/-- C1: on a close request the settlement computes
`profit = max(0, currentBalance − trackedDepositTotal)`,
`fee = profit * feeBps / 10000` with `feeBps = 2000` (the source's
`profit * 20n / 100n` computes exactly that), and
`payout = max(0, currentBalance − fee)`; no transfer is attempted when the
payout is `≤ 0`; balance 150 against deposit 100 yields fee 10 and payout
140, and balance 90 against deposit 100 yields profit 0, fee 0, payout
90. -/
theorem close_settlement_fee_and_payout (bal dep : ℤ) :
    (closeSettlement bal dep).profitBase = max 0 (bal - dep) ∧
    (closeSettlement bal dep).feeBase = max 0 (bal - dep) * 2000 / 10000 ∧
    (closeSettlement bal dep).sendBase =
      max 0 (bal - (closeSettlement bal dep).feeBase) ∧
    ((closeSettlement bal dep).sendBase ≤ 0 →
      (closeSettlement bal dep).attemptTransfer = false) ∧
    closeSettlement 150 100 =
      { profitBase := 50, feeBase := 10, sendBase := 140, attemptTransfer := true } ∧
    closeSettlement 90 100 =
      { profitBase := 0, feeBase := 0, sendBase := 90, attemptTransfer := true } := by
  have hprofit : (closeSettlement bal dep).profitBase = max 0 (bal - dep) := by
    simp only [closeSettlement]
    split_ifs <;> omega
  have hfee : (closeSettlement bal dep).feeBase = max 0 (bal - dep) * 2000 / 10000 := by
    simp only [closeSettlement]
    rw [Int.tdiv_eq_ediv (by split_ifs <;> omega) (by omega)]
    split_ifs <;> omega
  have hgen : ∀ f : ℤ, (if bal > f then bal - f else 0) = max 0 (bal - f) := by
    intro f
    split_ifs <;> omega
  refine ⟨hprofit, hfee, hgen _, ?_, by decide, by decide⟩
  intro h
  have hrfl : (closeSettlement bal dep).attemptTransfer
      = decide (0 < (closeSettlement bal dep).sendBase) := rfl
  rw [hrfl, decide_eq_false_iff_not]
  omega

/-- C1 witness: a concrete zero-balance close attempts no transfer, via the
payout-nonpositive clause of the theorem. -/
theorem close_settlement_fee_and_payout_witness :
    (closeSettlement 0 0).sendBase ≤ 0 ∧ (closeSettlement 0 0).attemptTransfer = false :=
  ⟨by decide, (close_settlement_fee_and_payout 0 0).2.2.2.1 (by decide)⟩

/-- C5: `computeMinFundingBreakdown` is a pure total function of its inputs
(the embedding is a total Lean function, mirroring a source that performs
only arithmetic and can never throw); every field is normalized first —
to `0` when missing or non-finite, except `holdHours` which defaults to `1`
and is forced strictly positive — and the resulting breakdown satisfies the
claimed equations. -/
theorem compute_min_funding_breakdown_spec (inputs : MinFundingInputs) :
    0 < (normalizeInputs inputs).holdHours ∧
    (inputs.spotRoundTripBps.isFinite = false →
      (normalizeInputs inputs).spotRoundTripBps = 0) ∧
    (inputs.perpRoundTripBps.isFinite = false →
      (normalizeInputs inputs).perpRoundTripBps = 0) ∧
    (inputs.gasRoundTripBps.isFinite = false →
      (normalizeInputs inputs).gasRoundTripBps = 0) ∧
    (inputs.capitalAprPct.isFinite = false →
      (normalizeInputs inputs).capitalAprPct = 0) ∧
    (inputs.fundingStdPctPerHr.isFinite = false →
      (normalizeInputs inputs).fundingStdPctPerHr = 0) ∧
    (inputs.zScore.isFinite = false → (normalizeInputs inputs).zScore = 0) ∧
    (inputs.extraBasisPremiumPctPerHr.isFinite = false →
      (normalizeInputs inputs).extraBasisPremiumPctPerHr = 0) ∧
    (inputs.holdHours.isFinite = false ∨ inputs.holdHours.toQ ≤ 0 →
      (normalizeInputs inputs).holdHours = 1) ∧
    (computeMinFundingBreakdown inputs).normalizedInputs = normalizeInputs inputs ∧
    (computeMinFundingBreakdown inputs).tradingCostPctPerHour =
      ((normalizeInputs inputs).spotRoundTripBps +
          (normalizeInputs inputs).perpRoundTripBps +
          (normalizeInputs inputs).gasRoundTripBps) / 100 /
        (normalizeInputs inputs).holdHours ∧
    (computeMinFundingBreakdown inputs).capitalCostPctPerHour =
      (normalizeInputs inputs).capitalAprPct / 100 / (365 * 24) ∧
    (computeMinFundingBreakdown inputs).breakevenPctPerHour =
      (computeMinFundingBreakdown inputs).tradingCostPctPerHour +
        (computeMinFundingBreakdown inputs).capitalCostPctPerHour ∧
    (computeMinFundingBreakdown inputs).riskBufferPctPerHour =
      (normalizeInputs inputs).zScore * (normalizeInputs inputs).fundingStdPctPerHr ∧
    (computeMinFundingBreakdown inputs).totalPctPerHour =
      (computeMinFundingBreakdown inputs).breakevenPctPerHour +
        (computeMinFundingBreakdown inputs).riskBufferPctPerHour +
        (normalizeInputs inputs).extraBasisPremiumPctPerHr := by
  refine ⟨?_, ?_, ?_, ?_, ?_, ?_, ?_, ?_, ?_, rfl, ?_, rfl, rfl, rfl, rfl⟩
  · simp only [normalizeInputs]
    split_ifs with h
    · exact of_decide_eq_true (Bool.and_elim_right h)
    · norm_num
  · intro h
    simp [normalizeInputs, defaultZero, h]
  · intro h
    simp [normalizeInputs, defaultZero, h]
  · intro h
    simp [normalizeInputs, defaultZero, h]
  · intro h
    simp [normalizeInputs, defaultZero, h]
  · intro h
    simp [normalizeInputs, defaultZero, h]
  · intro h
    simp [normalizeInputs, defaultZero, h]
  · intro h
    simp [normalizeInputs, defaultZero, h]
  · intro h
    rcases h with h | h
    · simp [normalizeInputs, h]
    · simp only [normalizeInputs]
      rw [if_neg]
      simp only [Bool.and_eq_true, decide_eq_true_eq, not_and]
      intro _
      exact not_lt.mpr h
  · simp only [computeMinFundingBreakdown]
    ring

/-- C5 witness: with every field missing, `holdHours` normalizes to `1` and
the trading-cost equation holds. -/
theorem compute_min_funding_breakdown_spec_witness :
    (normalizeInputs
      ⟨JSVal.undef, JSVal.undef, JSVal.undef, JSVal.undef, JSVal.undef,
        JSVal.undef, JSVal.undef, JSVal.undef⟩).holdHours = 1 :=
  (compute_min_funding_breakdown_spec
    ⟨JSVal.undef, JSVal.undef, JSVal.undef, JSVal.undef, JSVal.undef,
      JSVal.undef, JSVal.undef, JSVal.undef⟩).2.2.2.2.2.2.2.2.1 (Or.inl rfl)

/-- C4: `computeBreakevenHoldDuration` reports `possible = false` when the
funding observation is non-finite, when the derived `netFundingPerHour` is
`≤ 0`, and when the derived `holdHours = tradingCostPct / netFundingPerHour`
is negative (in the exact-rational model a finite observation always yields
finite derived values, so these are the only failure cases); otherwise it
reports `possible = true` with exactly that `holdHours` and
`holdDays = holdHours / 24`.  In particular `possible = false` whenever
`fundingPctPerHour ≤ capitalCostPctPerHour + riskBufferPctPerHour +
extraBasisPremiumPctPerHr`. -/
theorem compute_breakeven_hold_duration_spec (inputs : MinFundingInputs) (f : JSVal) :
    (f.isFinite = false →
      (computeBreakevenHoldDuration inputs f).breakevenPossible = false) ∧
    (∀ n : ℚ,
      (computeBreakevenHoldDuration inputs f).netFundingPerHour = JSVal.num n →
      n ≤ 0 → (computeBreakevenHoldDuration inputs f).breakevenPossible = false) ∧
    (∀ n : ℚ,
      (computeBreakevenHoldDuration inputs f).netFundingPerHour = JSVal.num n →
      0 < n → (computeBreakevenHoldDuration inputs f).tradingCostPct / n < 0 →
      (computeBreakevenHoldDuration inputs f).breakevenPossible = false) ∧
    (∀ n : ℚ,
      (computeBreakevenHoldDuration inputs f).netFundingPerHour = JSVal.num n →
      0 < n → 0 ≤ (computeBreakevenHoldDuration inputs f).tradingCostPct / n →
      (computeBreakevenHoldDuration inputs f).breakevenPossible = true ∧
      (computeBreakevenHoldDuration inputs f).holdHours =
        some ((computeBreakevenHoldDuration inputs f).tradingCostPct / n) ∧
      (computeBreakevenHoldDuration inputs f).holdDays =
        some ((computeBreakevenHoldDuration inputs f).tradingCostPct / n / 24)) ∧
    (∀ q : ℚ, f = JSVal.num q →
      q ≤ (computeMinFundingBreakdown inputs).capitalCostPctPerHour +
          (computeMinFundingBreakdown inputs).riskBufferPctPerHour +
          (computeMinFundingBreakdown inputs).basisPremiumPctPerHour →
      (computeBreakevenHoldDuration inputs f).breakevenPossible = false) := by
  cases f with
  | num q =>
    simp only [computeBreakevenHoldDuration, computeMinFundingBreakdown,
      JSVal.subQ, JSVal.isFinite, JSVal.jsLe0, JSVal.toQ, Bool.not_true,
      Bool.false_or]
    split_ifs with h1 h2
    · simp only [decide_eq_true_eq] at h1
      refine ⟨?_, ?_, ?_, ?_, ?_⟩
      · intro h
        exact absurd h (by simp)
      · intro n hn hle
        rfl
      · intro n hn h0 hneg
        rfl
      · intro n hn h0 hge
        simp only [JSVal.num.injEq] at hn
        exact absurd h0 (not_lt.mpr (hn ▸ h1))
      · intro q2 hq2 hsum
        rfl
    · simp only [decide_eq_true_eq, not_le] at h1
      refine ⟨?_, ?_, ?_, ?_, ?_⟩
      · intro h
        exact absurd h (by simp)
      · intro n hn hle
        simp only [JSVal.num.injEq] at hn
        exact absurd hle (hn ▸ not_le.mpr h1)
      · intro n hn h0 hneg
        rfl
      · intro n hn h0 hge
        simp only [JSVal.num.injEq] at hn
        subst hn
        exact absurd hge (not_le.mpr h2)
      · intro q2 hq2 hsum
        simp only [JSVal.num.injEq] at hq2
        subst hq2
        exact absurd h1 (not_lt.mpr (by linarith))
    · simp only [decide_eq_true_eq, not_le] at h1
      rw [not_lt] at h2
      refine ⟨?_, ?_, ?_, ?_, ?_⟩
      · intro h
        exact absurd h (by simp)
      · intro n hn hle
        simp only [JSVal.num.injEq] at hn
        exact absurd hle (hn ▸ not_le.mpr h1)
      · intro n hn h0 hneg
        simp only [JSVal.num.injEq] at hn
        subst hn
        exact absurd hneg (not_lt.mpr h2)
      · intro n hn h0 hge
        simp only [JSVal.num.injEq] at hn
        subst hn
        exact ⟨rfl, rfl, rfl⟩
      · intro q2 hq2 hsum
        simp only [JSVal.num.injEq] at hq2
        subst hq2
        exact absurd h1 (not_lt.mpr (by linarith))
  | undef =>
    refine ⟨fun _ => by simp [computeBreakevenHoldDuration, JSVal.isFinite],
      fun n hn => ?_, fun n hn => ?_, fun n hn => ?_, fun q2 hq2 => by simp at hq2⟩ <;>
      simp [computeBreakevenHoldDuration, JSVal.subQ, JSVal.isFinite] at hn
  | nan =>
    refine ⟨fun _ => by simp [computeBreakevenHoldDuration, JSVal.isFinite],
      fun n hn => ?_, fun n hn => ?_, fun n hn => ?_, fun q2 hq2 => by simp at hq2⟩ <;>
      simp [computeBreakevenHoldDuration, JSVal.subQ, JSVal.isFinite] at hn
  | inf =>
    refine ⟨fun _ => by simp [computeBreakevenHoldDuration, JSVal.isFinite],
      fun n hn => ?_, fun n hn => ?_, fun n hn => ?_, fun q2 hq2 => by simp at hq2⟩ <;>
      simp [computeBreakevenHoldDuration, JSVal.subQ, JSVal.isFinite] at hn
  | ninf =>
    refine ⟨fun _ => by simp [computeBreakevenHoldDuration, JSVal.isFinite],
      fun n hn => ?_, fun n hn => ?_, fun n hn => ?_, fun q2 hq2 => by simp at hq2⟩ <;>
      simp [computeBreakevenHoldDuration, JSVal.subQ, JSVal.isFinite] at hn

/-- C4 witness: with all cost inputs missing and funding `1 %/hr`, the net
funding is `1 > 0`, the round-trip cost is `0`, and the theorem's
possible-branch yields `possible = true` with a zero-hour hold. -/
theorem compute_breakeven_hold_duration_spec_witness :
    (computeBreakevenHoldDuration
      ⟨JSVal.undef, JSVal.undef, JSVal.undef, JSVal.undef, JSVal.undef,
        JSVal.undef, JSVal.undef, JSVal.undef⟩ (JSVal.num 1)).breakevenPossible = true :=
  ((compute_breakeven_hold_duration_spec
      ⟨JSVal.undef, JSVal.undef, JSVal.undef, JSVal.undef, JSVal.undef,
        JSVal.undef, JSVal.undef, JSVal.undef⟩ (JSVal.num 1)).2.2.2.1 1
    (by norm_num [computeBreakevenHoldDuration, normalizeInputs, defaultZero,
      JSVal.subQ, JSVal.isFinite, JSVal.toQ, JSVal.jsLe0])
    (by norm_num)
    (by norm_num [computeBreakevenHoldDuration, normalizeInputs, defaultZero,
      JSVal.subQ, JSVal.isFinite, JSVal.toQ, JSVal.jsLe0])).1

/-- C6: a strictly positive observed funding rate selects the
long-spot-short-perp open direction and a strictly negative one selects the
short-spot-long-perp open direction. -/
theorem open_direction_sign_mapping (q : ℚ) :
    (0 < q → openAttempts (JSVal.num q) = [Direction.longSpotShortPerp]) ∧
    (q < 0 → openAttempts (JSVal.num q) = [Direction.shortSpotLongPerp]) := by
  constructor
  · intro h
    simp [openAttempts, JSVal.typeofNumber, JSVal.jsGt0, h]
  · intro h
    simp [openAttempts, JSVal.typeofNumber, JSVal.jsGt0, not_lt.mpr h.le]

/-- C6 witness: funding `+0.02 %/hr` opens long-spot-short-perp and
`-0.02 %/hr` opens short-spot-long-perp. -/
theorem open_direction_sign_mapping_witness :
    openAttempts (JSVal.num (1 / 50)) = [Direction.longSpotShortPerp] ∧
    openAttempts (JSVal.num (-(1 / 50))) = [Direction.shortSpotLongPerp] :=
  ⟨(open_direction_sign_mapping (1 / 50)).1 (by norm_num),
   (open_direction_sign_mapping (-(1 / 50))).2 (by norm_num)⟩

/-- C7 counterexample: at funding exactly `0` the orchestrator's only open
attempt is short-spot-long-perp; long-spot-short-perp is not attempted at
all, so there is no "long first, then fall back" behaviour. -/
theorem open_zero_funding_counterexample :
    openAttempts (JSVal.num 0) = [Direction.shortSpotLongPerp] ∧
    Direction.longSpotShortPerp ∉ openAttempts (JSVal.num 0) := by
  have h : openAttempts (JSVal.num 0) = [Direction.shortSpotLongPerp] := by
    norm_num [openAttempts, JSVal.typeofNumber, JSVal.jsGt0]
  refine ⟨h, ?_⟩
  rw [h]
  simp

/-- C7 amended: when the observed funding rate is zero, `NaN`, or otherwise
not a positive number, the open path makes exactly one attempt —
short-spot-long-perp; a funding fetch that throws aborts the poll tick with
no open attempt.  The try-long-then-fall-back-once behaviour exists only in
the close path, when the inferred funding sign is unknown. -/
theorem open_zero_funding_goes_short (fr : JSVal) :
    (¬(fr.typeofNumber = true ∧ fr.jsGt0 = true) →
      openAttempts fr = [Direction.shortSpotLongPerp]) ∧
    pollTradeAttempts none = [] ∧
    (∀ v : JSVal, pollTradeAttempts (some v) = openAttempts v) ∧
    (∀ p ff, fundingRateSign p = 0 →
      closeSequencesAttempted p ff =
        if ff then [CloseSeq.closeLongSpotShortPerp, CloseSeq.closeShortSpotLongPerp]
        else [CloseSeq.closeLongSpotShortPerp]) := by
  refine ⟨?_, rfl, fun v => rfl, ?_⟩
  · intro h
    simp only [openAttempts, Bool.and_eq_true] at h ⊢
    rw [if_neg h]
  · intro p ff h
    simp only [closeSequencesAttempted, h]
    norm_num

/-- C7 amended witness: at funding `0` the open path attempts only
short-spot-long-perp. -/
theorem open_zero_funding_goes_short_witness :
    openAttempts (JSVal.num 0) = [Direction.shortSpotLongPerp] :=
  (open_zero_funding_goes_short (JSVal.num 0)).1 (by
    norm_num [JSVal.typeofNumber, JSVal.jsGt0])

/-- C3 counterexample: take an open short perp position (the hedge of the
long-spot-short-perp strategy) whose `fundingRate` field currently reads
`-0.005`.  The handler's inferred sign is `-1`, so it invokes
close-short-spot-long-perp — not close-long-spot-short-perp, the mirror of
the position's long/short flag — and the invoked script then refuses to
submit a close for the short position. -/
theorem close_direction_counterexample :
    fundingRateSign
      (some ⟨false, some (JSField.num (-(1 / 200))), some JSField.null⟩) = -1 ∧
    closeSequencesAttempted
      (some ⟨false, some (JSField.num (-(1 / 200))), some JSField.null⟩) false =
      [CloseSeq.closeShortSpotLongPerp] ∧
    mirrorCloseOf false = CloseSeq.closeLongSpotShortPerp ∧
    CloseSeq.closeShortSpotLongPerp ≠ CloseSeq.closeLongSpotShortPerp ∧
    closeShortSpotLongPerpSubmits (some ⟨42, 0, false⟩) true = false := by
  have hs : fundingRateSign
      (some ⟨false, some (JSField.num (-(1 / 200))), some JSField.null⟩) = -1 := by
    norm_num [fundingRateSign, parseNum, JSVal.isFinite, JSVal.jsEq0, JSVal.jsGt0]
  refine ⟨hs, ?_, rfl, by decide, by decide⟩
  simp only [closeSequencesAttempted, hs]
  norm_num

/-- C3 amended: at close time the handler selects the close sequence from
the funding-rate sign it infers from the open position's `fundingRate` /
`accFundingPerSize` fields, not from its long/short flag; each close script
re-reads the position and submits its closing order only when the
position's flag matches the script's leg, so the invoked close mirrors the
actual open leg exactly when the inferred sign agrees with that leg. -/
theorem close_direction_follows_funding_sign (p : Option PositionInfo)
    (ff : Bool) (pos : MerklePosition) (submitPerp : Bool) :
    (0 < fundingRateSign p →
      closeSequencesAttempted p ff = [CloseSeq.closeLongSpotShortPerp]) ∧
    (fundingRateSign p < 0 →
      closeSequencesAttempted p ff = [CloseSeq.closeShortSpotLongPerp]) ∧
    (closeShortSpotLongPerpSubmits (some pos) submitPerp = true →
      pos.isLong = true) ∧
    (closeLongSpotShortPerpSubmits (some pos) submitPerp = true →
      pos.isLong = false) ∧
    (∀ hp : PositionInfo, p = some hp →
      (0 < fundingRateSign p ∧ hp.isLong = false) ∨
        (fundingRateSign p < 0 ∧ hp.isLong = true) →
      closeSequencesAttempted p ff = [mirrorCloseOf hp.isLong]) := by
  have hpos : 0 < fundingRateSign p →
      closeSequencesAttempted p ff = [CloseSeq.closeLongSpotShortPerp] := by
    intro h
    simp only [closeSequencesAttempted]
    rw [if_pos h]
  have hneg : fundingRateSign p < 0 →
      closeSequencesAttempted p ff = [CloseSeq.closeShortSpotLongPerp] := by
    intro h
    simp only [closeSequencesAttempted]
    rw [if_neg (by omega), if_pos h]
  refine ⟨hpos, hneg, ?_, ?_, ?_⟩
  · simp only [closeShortSpotLongPerpSubmits]
    split_ifs with h1 h2 <;> simp_all
  · simp only [closeLongSpotShortPerpSubmits]
    split_ifs with h1 h2 <;> simp_all
  · rintro hp rfl (⟨h, hflag⟩ | ⟨h, hflag⟩)
    · rw [hpos h, mirrorCloseOf, hflag]
      norm_num
    · rw [hneg h, mirrorCloseOf, hflag]
      norm_num

/-- C3 amended witness: a short perp position whose funding field reads
positive gets the mirrored close (close-long-spot-short-perp). -/
theorem close_direction_follows_funding_sign_witness :
    closeSequencesAttempted
      (some ⟨false, some (JSField.num (1 / 100)), some JSField.null⟩) false =
      [mirrorCloseOf false] :=
  (close_direction_follows_funding_sign
      (some ⟨false, some (JSField.num (1 / 100)), some JSField.null⟩) false
      ⟨42, 0, false⟩ true).2.2.2.2
    ⟨false, some (JSField.num (1 / 100)), some JSField.null⟩ rfl
    (Or.inl ⟨by norm_num [fundingRateSign, parseNum, JSVal.isFinite,
      JSVal.jsEq0, JSVal.jsGt0], rfl⟩)

/-- C9 counterexample: the code's head comparison uses the first six
CHARACTERS of the target — the `0x` prefix plus only four hex digits — not
its first six hex characters.  An observed string that agrees with the
target on `0xa665` and on the last six characters but differs in the fifth
and sixth hex digits (`ff` vs `de`) is accepted by `sameAddress` yet
rejected under the claim's first-six-hex reading. -/
theorem same_address_counterexample :
    sameAddress "0xa665ffa608d5".toList
      "0xa665defb6d736ae6a0d983fd57f26040552c7832757fd325d7633940d6a608d5".toList
      = true ∧
    sameAddressHexHeadTail "0xa665ffa608d5".toList
      "0xa665defb6d736ae6a0d983fd57f26040552c7832757fd325d7633940d6a608d5".toList
      = false :=
  ⟨by decide, by decide⟩

/-- C9 amended: after the falsy guard and lowercase+trim normalization,
equal-length addresses are compared exactly (hence case-insensitively), and
addresses of different lengths match iff the observed string starts with
the target's first six characters (`0x` plus four hex digits) and ends with
the target's last six characters; the claim's truncation example
`0xa665d...6a608d5` matches the full target address. -/
theorem same_address_spec (observed target : List Char)
    (ho : observed ≠ []) (ht : target ≠ []) :
    ((trimChars (toLowerChars observed)).length =
        (trimChars (toLowerChars target)).length →
      (sameAddress observed target = true ↔
        trimChars (toLowerChars observed) = trimChars (toLowerChars target))) ∧
    ((trimChars (toLowerChars observed)).length ≠
        (trimChars (toLowerChars target)).length →
      (sameAddress observed target = true ↔
        ((trimChars (toLowerChars target)).take 6).isPrefixOf
            (trimChars (toLowerChars observed)) = true ∧
          (lastN 6 (trimChars (toLowerChars target))).isSuffixOf
            (trimChars (toLowerChars observed)) = true)) ∧
    sameAddress "0xa665d...6a608d5".toList
      "0xa665defb6d736ae6a0d983fd57f26040552c7832757fd325d7633940d6a608d5".toList
      = true := by
  have hguard : (observed.isEmpty || target.isEmpty) = false := by
    simp [List.isEmpty_iff, ho, ht]
  refine ⟨?_, ?_, by decide⟩
  · intro hlen
    simp only [sameAddress, hguard, Bool.false_eq_true, if_false, if_pos hlen]
    exact beq_iff_eq
  · intro hlen
    simp only [sameAddress, hguard, Bool.false_eq_true, if_false, if_neg hlen,
      Bool.and_eq_true]

/-- C9 amended witness: at equal lengths the comparison is exact but
case-insensitive. -/
theorem same_address_spec_witness :
    sameAddress "0xABC".toList "0xabc".toList = true :=
  ((same_address_spec "0xABC".toList "0xabc".toList (by decide) (by decide)).1
    (by decide)).mpr (by decide)

/-- One classify call never shrinks the persisted seen set. -/
theorem checkLatestDeposit_contains_mono (seen : List String) (tf tt : List Char)
    (row : Option DepositRow) (w : String) (hw : w ∈ seen) :
    w ∈ (checkLatestDeposit seen tf tt row).2 := by
  cases row with
  | none => exact hw
  | some r =>
    obtain ⟨ver, fa, ta, amt⟩ := r
    cases ver with
    | none => exact hw
    | some v =>
      simp only [checkLatestDeposit]
      by_cases hseen : v ∈ seen
      · simp [hseen, hw]
      · split_ifs <;> simp_all

/-- A version already in the seen set is never classified as new. -/
theorem checkLatestDeposit_seen_not_new (seen : List String) (tf tt : List Char)
    (row : Option DepositRow) (v : String) (d : ℚ) (hv : v ∈ seen) :
    (checkLatestDeposit seen tf tt row).1 ≠ CheckOutcome.newEvent v d := by
  cases row with
  | none => simp [checkLatestDeposit]
  | some r =>
    obtain ⟨ver, fa, ta, amt⟩ := r
    cases ver with
    | none => simp [checkLatestDeposit]
    | some w =>
      simp only [checkLatestDeposit]
      by_cases hseen : w ∈ seen
      · simp [hseen]
      · have hne : w ≠ v := fun h => hseen (h ▸ hv)
        split_ifs <;> simp_all

/-- A call that classifies `v` as new leaves `v` in the updated seen set. -/
theorem checkLatestDeposit_new_recorded (seen : List String) (tf tt : List Char)
    (row : Option DepositRow) (v : String) (d : ℚ)
    (h : (checkLatestDeposit seen tf tt row).1 = CheckOutcome.newEvent v d) :
    v ∈ (checkLatestDeposit seen tf tt row).2 := by
  cases row with
  | none => simp [checkLatestDeposit] at h
  | some r =>
    obtain ⟨ver, fa, ta, amt⟩ := r
    cases ver with
    | none => simp [checkLatestDeposit] at h
    | some w =>
      simp only [checkLatestDeposit] at h ⊢
      by_cases hseen : w ∈ seen
      · simp [hseen] at h
      · split_ifs at h ⊢ <;> simp_all

/-- While `v` stays in the seen set, no further poll classifies it as new. -/
theorem runPolls_seen_count_zero (tf tt : List Char)
    (rows : List (Option DepositRow)) (seen : List String) (v : String)
    (hv : v ∈ seen) :
    countNewFor v (runPolls tf tt seen rows).1 = 0 := by
  induction rows generalizing seen with
  | nil => rfl
  | cons row rows ih =>
    simp only [runPolls]
    cases hstep : (checkLatestDeposit seen tf tt row).1 with
    | noNew =>
      simp only [countNewFor]
      exact ih _ (checkLatestDeposit_contains_mono seen tf tt row v hv)
    | newEvent w d =>
      have hwv : w ≠ v := by
        intro h
        exact checkLatestDeposit_seen_not_new seen tf tt row v d hv (h ▸ hstep)
      simp only [countNewFor, if_neg hwv, Nat.zero_add]
      exact ih _ (checkLatestDeposit_contains_mono seen tf tt row v hv)

/-- C2: over any sequence of polls, a given version is classified as new at
most once — never when it is already in the persisted seen set — each call
that classifies a version as new records it in the persisted set (whatever
the relevance comparison says, which happens after the recording), and a
call observing an already-seen version returns the no-new-event result and
leaves the set unchanged. -/
theorem deposit_watermark_idempotent (seen : List String) (tf tt : List Char)
    (rows : List (Option DepositRow)) (v : String) :
    (v ∈ seen → countNewFor v (runPolls tf tt seen rows).1 = 0) ∧
    countNewFor v (runPolls tf tt seen rows).1 ≤ 1 ∧
    (∀ row d, (checkLatestDeposit seen tf tt row).1 = CheckOutcome.newEvent v d →
      v ∈ (checkLatestDeposit seen tf tt row).2) ∧
    (∀ r : DepositRow, r.version = some v → v ∈ seen →
      (checkLatestDeposit seen tf tt (some r)).1 = CheckOutcome.noNew ∧
      (checkLatestDeposit seen tf tt (some r)).2 = seen) := by
  refine ⟨runPolls_seen_count_zero tf tt rows seen v, ?_,
    fun row d h => checkLatestDeposit_new_recorded seen tf tt row v d h, ?_⟩
  · induction rows generalizing seen with
    | nil => exact Nat.zero_le 1
    | cons row rows ih =>
      simp only [runPolls]
      cases hstep : (checkLatestDeposit seen tf tt row).1 with
      | noNew =>
        simpa only [countNewFor] using ih (checkLatestDeposit seen tf tt row).2
      | newEvent w d =>
        by_cases hwv : w = v
        · subst hwv
          have hmem := checkLatestDeposit_new_recorded seen tf tt row w d hstep
          have hrest := runPolls_seen_count_zero tf tt rows
            (checkLatestDeposit seen tf tt row).2 w hmem
          simp only [countNewFor, eq_self_iff_true, if_true, hrest]
          norm_num
        · simp only [countNewFor, if_neg hwv, Nat.zero_add]
          exact ih (checkLatestDeposit seen tf tt row).2
  · intro r hver hv
    obtain ⟨ver, fa, ta, amt⟩ := r
    cases ver with
    | none => simp at hver
    | some w =>
      simp only [Option.some.injEq] at hver
      subst hver
      simp [checkLatestDeposit, hv]

/-- C2 witness: a second poll observing the version recorded by the first
returns no-new-event; over the two-poll run the version is counted new
exactly once. -/
theorem deposit_watermark_idempotent_witness :
    countNewFor "v1"
      (runPolls "0xaa".toList "0xbb".toList []
        [some ⟨some "v1", "0xaa".toList, "0xbb".toList, some 7⟩,
         some ⟨some "v1", "0xaa".toList, "0xbb".toList, some 7⟩]).1 ≤ 1 ∧
    (checkLatestDeposit ["v1"] "0xaa".toList "0xbb".toList
        (some ⟨some "v1", "0xaa".toList, "0xbb".toList, some 7⟩)).1 =
      CheckOutcome.noNew :=
  ⟨(deposit_watermark_idempotent [] "0xaa".toList "0xbb".toList
      [some ⟨some "v1", "0xaa".toList, "0xbb".toList, some 7⟩,
       some ⟨some "v1", "0xaa".toList, "0xbb".toList, some 7⟩] "v1").2.1,
   ((deposit_watermark_idempotent ["v1"] "0xaa".toList "0xbb".toList [] "v1").2.2.2
      ⟨some "v1", "0xaa".toList, "0xbb".toList, some 7⟩ rfl (by decide)).1⟩

/-- C8 counterexample: the arbitrage open sequencer applies no leverage
clamp.  With a quote requiring 1000 USDC of size, `--perp-collateral 5`,
venue minimum size 2 USDC, minimum collateral 5 USDC and maximum leverage
150x, the submitted order is (1 000 000 000, 5 000 000) base units — an
implied leverage of 200x, above the venue cap. -/
theorem leverage_clamp_counterexample :
    longSpotShortPerpOrder 1000000000 (some 5) 2000000 5000000 =
      (1000000000, 5000000) ∧
    ¬((1000000000 : ℚ) / 5000000 ≤ 150) := by
  constructor
  · norm_num [longSpotShortPerpOrder, jsRound]
  · norm_num

/-- C8 amended: the sizing pipeline of `perp/index.ts`'s `main` does satisfy
the claim — the clamped USDC amounts obey `size / collateral ≤ maxLeverage`
exactly, the base-unit deltas obey it up to rounding
(`sizeDelta ≤ maxLeverage·collateralDelta + (maxLeverage+1)/2` base units),
the requested size is never decreased, and when the clamp fires the
collateral strictly increases — but the arbitrage open sequencers
(`long-spot-short-perp`, `short-spot-long-perp`) apply only the venue
minimums and no leverage clamp. -/
theorem perp_index_leverage_clamp (size0 coll0 lev minS minC maxLev : ℚ)
    (cs ls : Bool) (hsize : 0 < size0) (hcoll : 0 < coll0) (hlev : 0 < lev)
    (hmax : 0 < maxLev) :
    size0 ≤ (perpIndexFinalOrder size0 coll0 lev minS minC maxLev cs ls).sizeUSDC ∧
    0 < (perpIndexFinalOrder size0 coll0 lev minS minC maxLev cs ls).collateralUSDC ∧
    (perpIndexFinalOrder size0 coll0 lev minS minC maxLev cs ls).sizeUSDC /
        (perpIndexFinalOrder size0 coll0 lev minS minC maxLev cs ls).collateralUSDC ≤
      maxLev ∧
    (maxLev < perpIndexSizeUSDC size0 minS /
        perpIndexCollPreClamp size0 coll0 lev minS minC cs ls →
      perpIndexCollPreClamp size0 coll0 lev minS minC cs ls <
        (perpIndexFinalOrder size0 coll0 lev minS minC maxLev cs ls).collateralUSDC) ∧
    ((perpIndexFinalOrder size0 coll0 lev minS minC maxLev cs ls).sizeDelta : ℚ) ≤
      maxLev *
          ((perpIndexFinalOrder size0 coll0 lev minS minC maxLev cs ls).collateralDelta : ℚ) +
        (maxLev + 1) / 2 := by
  have hfs : (perpIndexFinalOrder size0 coll0 lev minS minC maxLev cs ls).sizeUSDC =
      perpIndexSizeUSDC size0 minS := rfl
  have hfc : (perpIndexFinalOrder size0 coll0 lev minS minC maxLev cs ls).collateralUSDC =
      perpIndexCollUSDC size0 coll0 lev minS minC maxLev cs ls := rfl
  have hfsd : (perpIndexFinalOrder size0 coll0 lev minS minC maxLev cs ls).sizeDelta =
      jsRound (perpIndexSizeUSDC size0 minS * 1000000) := rfl
  have hfcd : (perpIndexFinalOrder size0 coll0 lev minS minC maxLev cs ls).collateralDelta =
      jsRound (perpIndexCollUSDC size0 coll0 lev minS minC maxLev cs ls * 1000000) := rfl
  rw [hfs, hfc, hfsd, hfcd]
  have hS : 0 < perpIndexSizeUSDC size0 minS := by
    unfold perpIndexSizeUSDC
    split_ifs with h
    · linarith
    · exact hsize
  have hS0 : size0 ≤ perpIndexSizeUSDC size0 minS := by
    unfold perpIndexSizeUSDC
    split_ifs with h
    · linarith
    · exact le_refl _
  have hC2 : 0 < perpIndexCollPreClamp size0 coll0 lev minS minC cs ls := by
    unfold perpIndexCollPreClamp
    dsimp only
    split_ifs with h1 h2 h3
    · linarith [div_pos hS hlev]
    · exact div_pos hS hlev
    · linarith
    · exact hcoll
  have hkey : ∀ F : ℚ, 0 < F → perpIndexSizeUSDC size0 minS / F ≤ maxLev →
      (jsRound (perpIndexSizeUSDC size0 minS * 1000000) : ℚ) ≤
        maxLev * (jsRound (F * 1000000) : ℚ) + (maxLev + 1) / 2 := by
    intro F hF hlevF
    have h1 : perpIndexSizeUSDC size0 minS ≤ maxLev * F := (div_le_iff₀ hF).mp hlevF
    have h2 : (jsRound (perpIndexSizeUSDC size0 minS * 1000000) : ℚ) ≤
        perpIndexSizeUSDC size0 minS * 1000000 + 1 / 2 := by
      unfold jsRound
      exact_mod_cast Int.floor_le (perpIndexSizeUSDC size0 minS * 1000000 + 1 / 2)
    have h3 : F * 1000000 - 1 / 2 < (jsRound (F * 1000000) : ℚ) := by
      unfold jsRound
      have := Int.sub_one_lt_floor (F * 1000000 + 1 / 2)
      linarith [this]
    have h4 : maxLev * (F * 1000000 - 1 / 2) < maxLev * (jsRound (F * 1000000) : ℚ) :=
      mul_lt_mul_of_pos_left h3 hmax
    nlinarith [h1, h2, h4, hmax.le]
  by_cases hclamp : maxLev < perpIndexSizeUSDC size0 minS /
      perpIndexCollPreClamp size0 coll0 lev minS minC cs ls
  · have hFval : perpIndexCollUSDC size0 coll0 lev minS minC maxLev cs ls =
        (jsCeil (perpIndexSizeUSDC size0 minS / maxLev * 1000000) : ℚ) / 1000000 := by
      unfold perpIndexCollUSDC
      rw [if_pos hclamp]
    have hceil : perpIndexSizeUSDC size0 minS / maxLev * 1000000 ≤
        (jsCeil (perpIndexSizeUSDC size0 minS / maxLev * 1000000) : ℚ) := Int.le_ceil _
    have hFge : perpIndexSizeUSDC size0 minS / maxLev ≤
        perpIndexCollUSDC size0 coll0 lev minS minC maxLev cs ls := by
      rw [hFval]
      rw [le_div_iff₀ (by norm_num : (0 : ℚ) < 1000000)]
      linarith
    have hFpos : 0 < perpIndexCollUSDC size0 coll0 lev minS minC maxLev cs ls :=
      lt_of_lt_of_le (div_pos hS hmax) hFge
    have hlevF : perpIndexSizeUSDC size0 minS /
        perpIndexCollUSDC size0 coll0 lev minS minC maxLev cs ls ≤ maxLev := by
      rw [div_le_iff₀ hFpos]
      have : maxLev * (perpIndexSizeUSDC size0 minS / maxLev) ≤
          maxLev * perpIndexCollUSDC size0 coll0 lev minS minC maxLev cs ls :=
        mul_le_mul_of_nonneg_left hFge hmax.le
      rwa [mul_div_cancel₀ _ (ne_of_gt hmax)] at this
    refine ⟨hS0, hFpos, hlevF, fun _ => ?_, hkey _ hFpos hlevF⟩
    have hC2lt : perpIndexCollPreClamp size0 coll0 lev minS minC cs ls <
        perpIndexSizeUSDC size0 minS / maxLev := by
      rw [lt_div_iff₀ hmax]
      have := (lt_div_iff₀ hC2).mp hclamp
      linarith
    exact lt_of_lt_of_le hC2lt hFge
  · have hFval : perpIndexCollUSDC size0 coll0 lev minS minC maxLev cs ls =
        perpIndexCollPreClamp size0 coll0 lev minS minC cs ls := by
      unfold perpIndexCollUSDC
      rw [if_neg hclamp]
    have hFpos : 0 < perpIndexCollUSDC size0 coll0 lev minS minC maxLev cs ls := by
      rw [hFval]
      exact hC2
    have hlevF : perpIndexSizeUSDC size0 minS /
        perpIndexCollUSDC size0 coll0 lev minS minC maxLev cs ls ≤ maxLev := by
      rw [hFval]
      exact not_lt.mp hclamp
    exact ⟨hS0, hFpos, hlevF, fun h => absurd h hclamp, hkey _ hFpos hlevF⟩

/-- C8 amended witness: requested size 100 USDC on collateral 1 USDC (100x)
against a 10x cap gets its collateral raised to 10 USDC, landing exactly on
the cap. -/
theorem perp_index_leverage_clamp_witness :
    (perpIndexFinalOrder 100 1 20 2 5 10 true false).sizeUSDC /
      (perpIndexFinalOrder 100 1 20 2 5 10 true false).collateralUSDC ≤ 10 :=
  (perp_index_leverage_clamp 100 1 20 2 5 10 true false (by norm_num)
    (by norm_num) (by norm_num) (by norm_num)).2.2.1

/-- C10: a `/close_position` run resets the tracked deposit total to zero
only on the line after a submitted-and-confirmed payout transfer; on every
other path — close legs failed, nothing to send after fees, or the payout
transaction threw — the handler's catch (or early return) leaves the
tracked deposit total unchanged for the next settlement. -/
theorem close_preserves_deposit_on_error (td : ℚ) (ok : Bool) (bal : ℤ) (wk : Bool) :
    (wk = false → (closePositionRun td ok bal wk).2 = td) ∧
    (ok = false → (closePositionRun td ok bal wk).2 = td) ∧
    ((closePositionRun td ok bal wk).1 = CloseFlowOutcome.closeLegsFailed ∨
        (closePositionRun td ok bal wk).1 = CloseFlowOutcome.noFundsAfterFees ∨
        (closePositionRun td ok bal wk).1 = CloseFlowOutcome.payoutTxFailed →
      (closePositionRun td ok bal wk).2 = td) ∧
    ((closePositionRun td ok bal wk).2 ≠ td →
      (closePositionRun td ok bal wk).2 = 0 ∧ ok = true ∧ wk = true ∧
        (closePositionRun td ok bal wk).1 =
          CloseFlowOutcome.paidOut
            (closeSettlement bal (jsRound (td * 1000000))).sendBase) := by
  unfold closePositionRun
  cases ok <;> cases wk <;>
    simp only [Bool.not_true, Bool.not_false, if_true, if_false] <;>
    first
      | (split_ifs with h <;> simp_all)
      | simp_all

/-- C10 witness: when the payout transaction fails, the tracked deposit
total is exactly what it was before the close request. -/
theorem close_preserves_deposit_on_error_witness :
    (closePositionRun 5 true 100000000 false).2 = 5 :=
  (close_preserves_deposit_on_error 5 true 100000000 false).1 rfl

